import Mathlib

/-!
Verification development for the polycopycatbot repository.

Shallow embedding of the three core subsystems:
  * the wallet position tracker (`src/wallet_monitor.py`): `Position`,
    `fetch_positions`, and the per-wallet diff of `detect_changes`;
  * the risk-sized trade executor (`src/trade_executor.py`): `Config`,
    `calculate_size` with its daily-P&L reset;
  * the settlement coordinator (`src/redemption_service.py`): quota state,
    `check_quota`, `batch_redeem`, `check_resolved`,
    `discover_and_redeem_orphans`.

Python floats are embedded as exact rationals (ℚ), Python dicts as
insertion-ordered association lists, Python sets as `Finset String`.
Ambient effects (wall clock, network responses, relayer outcomes) are passed
in explicitly as environment values, so every operation is a pure function
from state and environment to state and result.
-/

/-- Python value as stored in an object attribute: a string or a number. -/
inductive PyVal where
  | str : String → PyVal
  | num : ℚ → PyVal
deriving DecidableEq

/-- Position, from `wallet_monitor.py` lines 9-30.  The constructor sets
exactly these six attributes; nothing in the repository ever sets any other
attribute on a `Position` instance. -/
structure Position where
  market_id : String
  token_id : String
  outcome : String
  size : ℚ
  price : ℚ
  trader : String
deriving DecidableEq

/-- Dynamic attribute lookup on a `Position` instance, mirroring the Python
object attribute access semantics: the six attributes set in `__init__` are present,
any other name yields no value (an `AttributeError` in Python). -/
def Position.getattr (p : Position) (attr : String) : Option PyVal :=
  if attr = "market_id" then some (.str p.market_id)
  else if attr = "token_id" then some (.str p.token_id)
  else if attr = "outcome" then some (.str p.outcome)
  else if attr = "size" then some (.num p.size)
  else if attr = "price" then some (.num p.price)
  else if attr = "trader" then some (.str p.trader)
  else none

/-- Snapshot of a wallet: Python dict `market_id -> Position`, embedded as an
insertion-ordered association list. -/
def Snapshot : Type := List (String × Position)

/-- Dict lookup `previous[mid]` / membership `mid in previous`. -/
def lookupPos (mid : String) : List (String × Position) → Option Position
  | [] => none
  | kv :: rest => if kv.1 = mid then some kv.2 else lookupPos mid rest

/-- A Python dict never holds two entries with the same key. -/
def nodupKeys (l : List (String × Position)) : Prop :=
  (l.map Prod.fst).Nodup

/-- Dict write `positions[mid] = pos`: overwrite in place if the key exists,
otherwise append at the end (Python dicts preserve insertion order). -/
def dictInsert (l : List (String × Position)) (mid : String) (pos : Position) :
    List (String × Position) :=
  if mid ∈ l.map Prod.fst then
    l.map (fun kv => if kv.1 = mid then (mid, pos) else kv)
  else l ++ [(mid, pos)]

/-- One raw entry of the Data-API positions response, with the optional JSON
fields read by `fetch_positions`. -/
structure RawPosition where
  size : Option ℚ
  amount : Option ℚ
  market : Option String
  conditionId : Option String
  market_id : Option String
  outcome : Option String
  avgPrice : Option ℚ
  entry_price : Option ℚ
  asset : Option String
  tokenId : Option String
deriving DecidableEq

/-- Python `a or b` for strings, where `""` (and an absent value read back as
`""`) is falsy. -/
def pyStrOr (a b : String) : String := if a = "" then b else a

/-- Python `a or b` for numbers, where `0` is falsy. -/
def pyNumOr (a b : ℚ) : ℚ := if a = 0 then b else a

/-- Market id selection of `fetch_positions`:
`p.get("market") or p.get("conditionId") or p.get("market_id", "")`. -/
def rawMarketId (p : RawPosition) : String :=
  pyStrOr (p.market.getD "") (pyStrOr (p.conditionId.getD "") (p.market_id.getD ""))

/-- Size selection of `fetch_positions`:
`float(p.get("size", 0) or p.get("amount", 0) or 0)`. -/
def rawSize (p : RawPosition) : ℚ :=
  pyNumOr (p.size.getD 0) (pyNumOr (p.amount.getD 0) 0)

/-- Outcome of the wallet-positions HTTP fetch: a transport failure
(exception), or a response with a status code and a body that is either a
JSON list or something else (`none`). -/
inductive FetchResponse where
  | failure : FetchResponse
  | ok : ℕ → Option (List RawPosition) → FetchResponse

/-- One iteration of the response loop of `fetch_positions`
(`wallet_monitor.py` lines 56-76): skip entries with nonpositive size or a
missing market id, otherwise store the parsed position under its market id. -/
def fetchStep (address : String) (acc : List (String × Position)) (p : RawPosition) :
    List (String × Position) :=
  if rawSize p ≤ 0 then acc
  else if rawMarketId p = "" then acc
  else
    dictInsert acc (rawMarketId p)
      { market_id := rawMarketId p
        token_id := pyStrOr (p.asset.getD "") (p.tokenId.getD "")
        outcome := p.outcome.getD ""
        size := rawSize p
        price := pyNumOr (p.avgPrice.getD 0) (pyNumOr (p.entry_price.getD 0) 0)
        trader := address }

/-- WalletMonitor.fetch_positions, `wallet_monitor.py` lines 41-81: build the
snapshot dict from the response, skipping entries with nonpositive size or a
missing market id; any error, non-200 status or non-list body yields an empty
snapshot. -/
def fetch_positions (address : String) (resp : FetchResponse) :
    List (String × Position) :=
  match resp with
  | .failure => []
  | .ok status body =>
    if status ≠ 200 then []
    else
      match body with
      | none => []
      | some data => data.foldl (fetchStep address) []

/-- Well-formedness of a snapshot as produced by `fetch_positions`: every
entry maps a nonempty market id to a position carrying that id and a strictly
positive size. -/
def wellFormedSnapshot (l : List (String × Position)) : Prop :=
  ∀ kv ∈ l, kv.1 ≠ "" ∧ kv.2.market_id = kv.1 ∧ 0 < kv.2.size

/-- Positions emitted as new by the per-wallet diff of
`WalletMonitor.detect_changes` (`wallet_monitor.py` lines 131-134): present in
the current snapshot, absent from the previous one. -/
def new_positions (previous current : List (String × Position)) : List Position :=
  (current.filter (fun kv => (lookupPos kv.1 previous).isNone)).map Prod.snd

/-- Positions emitted as adjusted by the per-wallet diff
(`wallet_monitor.py` lines 135-136): present in both snapshots with
`abs(pos.size - previous[mid].size) > 0.01`. -/
def adjusted_positions (previous current : List (String × Position)) : List Position :=
  (current.filter (fun kv =>
    match lookupPos kv.1 previous with
    | some prev => decide (1/100 < |kv.2.size - prev.size|)
    | none => false)).map Prod.snd

/-- Positions emitted as closed by the per-wallet diff
(`wallet_monitor.py` lines 139-141): present in the previous snapshot, absent
from the current one. -/
def closed_positions (previous current : List (String × Position)) : List Position :=
  (previous.filter (fun kv => (lookupPos kv.1 current).isNone)).map Prod.snd

/-- The four classes a market id can fall into under the diff. -/
inductive ChangeClass where
  | unchanged : ChangeClass
  | fresh : ChangeClass
  | closed : ChangeClass
  | adjusted : ChangeClass
deriving DecidableEq

/-- Membership of a market id in a class of the diff of two snapshots.  The
three emitted classes are read off the emitted event lists; `unchanged` is
the residual class: present in both snapshots with a size difference within
the `0.01` tolerance (no event emitted). -/
def inClass (previous current : List (String × Position)) (mid : String) :
    ChangeClass → Prop
  | .fresh => mid ∈ (new_positions previous current).map Position.market_id
  | .closed => mid ∈ (closed_positions previous current).map Position.market_id
  | .adjusted => mid ∈ (adjusted_positions previous current).map Position.market_id
  | .unchanged => ∃ vp vc, lookupPos mid previous = some vp ∧
      lookupPos mid current = some vc ∧ ¬(1/100 < |vc.size - vp.size|)

/-- Configuration, `config.py`: the fields of the `Config` dataclass that the
core subsystems read. -/
structure Config where
  api_url : String
  api_key : String
  private_key : String
  funder : String
  rpc_url : String
  paper_trading : Bool
  max_traders : ℤ
  poll_interval : ℤ
  account_balance_usd : ℚ
  trader_capital_estimate : ℚ
  max_position_pct : ℚ
  daily_loss_limit_pct : ℚ
  max_position_usd : ℚ
  max_concurrent_positions : ℤ
  daily_loss_limit_usd : ℚ
  capital_ratio : ℚ
  builder_api_key : String
  builder_api_secret : String
  builder_api_passphrase : String
  manual_traders : List String

/-- Config.validate, `config.py` lines 72-98: the list of validation errors,
empty exactly when the configuration is accepted at startup. -/
def Config.validate (cfg : Config) : List String :=
  (if cfg.api_key = "" ∧ cfg.manual_traders = [] then
    ["Set PCC_API_KEY or MANUAL_TRADERS in .env"] else [])
  ++ (if cfg.paper_trading = false ∧ cfg.private_key = "" then
    ["PRIVATE_KEY required for live trading"] else [])
  ++ (if cfg.poll_interval < 1 then ["poll_interval must be >= 1"] else [])
  ++ (if cfg.max_position_usd ≤ 0 then ["max_position_usd must be > 0"] else [])
  ++ (if cfg.max_concurrent_positions < 1 then
    ["max_concurrent_positions must be >= 1"] else [])
  ++ (if cfg.daily_loss_limit_usd ≤ 0 then
    ["daily_loss_limit_usd must be > 0"] else [])
  ++ (if cfg.max_traders < 1 ∨ cfg.max_traders > 20 then
    ["max_traders must be between 1 and 20"] else [])
  ++ (if cfg.capital_ratio < 1 then ["capital_ratio must be >= 1.0"] else [])
  ++ (if cfg.account_balance_usd < 0 then
    ["account_balance_usd must be >= 0"] else [])
  ++ (if cfg.trader_capital_estimate < 1000 then
    ["trader_capital_estimate must be >= 1000"] else [])
  ++ (if cfg.max_position_pct ≤ 0 ∨ cfg.max_position_pct > 1 then
    ["max_position_pct must be between 0 and 1"] else [])
  ++ (if cfg.daily_loss_limit_pct ≤ 0 ∨ cfg.daily_loss_limit_pct > 1 then
    ["daily_loss_limit_pct must be between 0 and 1"] else [])

/-- One ledger entry of the executor: `{"size": ..., "entry_price": ...}`. -/
structure LedgerEntry where
  size : ℚ
  entry_price : ℚ
deriving DecidableEq

/-- Mutable state of `TradeExecutor` (`trade_executor.py`): the open-position
ledger, the running daily P&L, and the UTC date of the last P&L reset
(embedded as an integer day stamp; only equality of dates is ever tested). -/
structure TradeExecutor where
  open_positions : List (String × LedgerEntry)
  daily_pnl : ℚ
  last_reset_date : ℤ
deriving DecidableEq

/-- Python `round(x)` on a float: round half to even. -/
def roundHalfEven (q : ℚ) : ℤ :=
  if q - ⌊q⌋ = 1/2 then (if Even ⌊q⌋ then ⌊q⌋ else ⌊q⌋ + 1) else round q

/-- Python `round(x, 2)`: round to two decimal places, half to even. -/
def round2 (q : ℚ) : ℚ := (roundHalfEven (q * 100) : ℚ) / 100

/-- The active risk cap of `calculate_size` (`trade_executor.py` lines 51-55):
percentage of the configured account balance when one is set, the fixed
dollar cap otherwise. -/
def active_cap (cfg : Config) : ℚ :=
  if cfg.account_balance_usd > 0 then
    cfg.account_balance_usd * cfg.max_position_pct
  else cfg.max_position_usd

/-- Start-of-call daily P&L reset of `calculate_size`
(`trade_executor.py` lines 43-46): zero the P&L and record the new date when
the observed UTC date differs from the stored one. -/
def pnlRollover (ex : TradeExecutor) (today : ℤ) : TradeExecutor :=
  if today ≠ ex.last_reset_date then
    { ex with daily_pnl := 0, last_reset_date := today }
  else ex

/-- Body of `calculate_size` after the P&L reset
(`trade_executor.py` lines 48-72): scale the trader size down by the capital
ratio, cap it, enforce the $1 minimum, the concurrent-position limit and the
daily loss limit, and round the result to two decimals. -/
def calcSizeAfter (cfg : Config) (ex : TradeExecutor) (pos : Position) :
    TradeExecutor × ℚ :=
  if min (pos.size / cfg.capital_ratio) (active_cap cfg) < 1 then (ex, 0)
  else if cfg.max_concurrent_positions ≤ (ex.open_positions.length : ℤ) then (ex, 0)
  else if ex.daily_pnl ≤ -cfg.daily_loss_limit_usd then (ex, 0)
  else (ex, round2 (min (pos.size / cfg.capital_ratio) (active_cap cfg)))

/-- TradeExecutor.calculate_size, `trade_executor.py` lines 40-72, as a pure
function of the configuration, the executor state, the observed UTC day and
the trader position; returns the updated state and the computed size. -/
def calculate_size (cfg : Config) (ex : TradeExecutor) (today : ℤ) (pos : Position) :
    TradeExecutor × ℚ :=
  calcSizeAfter cfg (pnlRollover ex today) pos

/-- Relayer daily quota ceiling, `redemption_service.py` line 62. -/
def DAILY_TX_LIMIT : ℕ := 80

/-- Minimum seconds between redemptions, `redemption_service.py` line 63. -/
def MIN_REDEEM_INTERVAL : ℚ := 30

/-- Cap on orphan candidates per discovery sweep,
`redemption_service.py` line 66. -/
def DISCOVERY_MAX_PER_SWEEP : ℕ := 5

/-- Mutable state of `RedemptionService`
(`redemption_service.py` lines 73-85): the daily quota counters and the
session-level set of already-redeemed condition ids. -/
structure RedemptionService where
  daily_tx_count : ℕ
  daily_tx_date : String
  quota_reset_at : ℚ
  last_redeem_time : ℚ
  redeemed_conditions : Finset String

/-- Date-rollover reset at the top of `_check_quota`
(`redemption_service.py` lines 129-132). -/
def quotaRollover (svc : RedemptionService) (today : String) : RedemptionService :=
  if today ≠ svc.daily_tx_date then
    { svc with daily_tx_count := 0, daily_tx_date := today, quota_reset_at := 0 }
  else svc

/-- The three quota checks of `_check_quota` after the date rollover
(`redemption_service.py` lines 134-146): active cooldown, daily ceiling,
minimum interval since the last redemption. -/
def checkQuotaAfter (s : RedemptionService) (now : ℚ) : RedemptionService × Bool × String :=
  if s.quota_reset_at > 0 ∧ now < s.quota_reset_at then
    (s, false, "Quota exhausted, resets in " ++
      toString (roundHalfEven (s.quota_reset_at - now)) ++ "s")
  else if DAILY_TX_LIMIT ≤ s.daily_tx_count then
    (s, false, "Daily limit (" ++ toString s.daily_tx_count ++ "/" ++
      toString DAILY_TX_LIMIT ++ ")")
  else if now - s.last_redeem_time < MIN_REDEEM_INTERVAL then
    (s, false, "Rate limit: wait " ++
      toString (roundHalfEven (MIN_REDEEM_INTERVAL - (now - s.last_redeem_time))) ++ "s")
  else (s, true, "OK")

/-- RedemptionService._check_quota, `redemption_service.py` lines 125-146:
returns the (possibly date-reset) state, whether submission is allowed, and
the denial reason. -/
def check_quota (svc : RedemptionService) (now : ℚ) (today : String) :
    RedemptionService × Bool × String :=
  checkQuotaAfter (quotaRollover svc today) now

/-- RedemptionService._record_tx, `redemption_service.py` lines 148-150. -/
def record_tx (svc : RedemptionService) (now : ℚ) : RedemptionService :=
  { svc with daily_tx_count := svc.daily_tx_count + 1, last_redeem_time := now }

/-- RedemptionService._handle_429, `redemption_service.py` lines 152-159: set
the cooldown from the parsed `resets in N seconds` hint when present, one
hour otherwise. -/
def handle_429 (svc : RedemptionService) (now : ℚ) (resetHint : Option ℕ) :
    RedemptionService :=
  match resetHint with
  | some n => { svc with quota_reset_at := now + (n : ℚ) }
  | none => { svc with quota_reset_at := now + 3600 }

/-- Substring test, used for the rate-limit check on error messages. -/
def containsSub (s pat : String) : Bool := (s.splitOn pat).length > 1

/-- The rate-limit test of the exception handler in `batch_redeem`
(`redemption_service.py` line 294): the message contains `429` or `rate`
case-insensitively. -/
def is_rate_limit_msg (msg : String) : Bool :=
  containsSub msg "429" || containsSub msg.toLower "rate"

/-- Successful relayer submission: transaction id and hash. -/
structure TxSubmission where
  transaction_id : String
  transaction_hash : String
deriving DecidableEq

/-- Terminal poll response: the reported state and optional confirmed hash. -/
structure PollFinal where
  state : String
  transactionHash : Option String
deriving DecidableEq

/-- The dict returned by `batch_redeem`. -/
structure BatchResult where
  success : Bool
  redeemed : List String
  tx_hash : Option String
  error : Option String
  note : Option String
deriving DecidableEq

/-- Environment of one `batch_redeem` call: whether builder credentials are
configured, the monotonic clock at the quota gate and at submission time, the
UTC date string, the outcome of the relayer `execute` call, the outcome of
the confirmation poll (`Except.error` models a raised exception, `none` a
falsy final state), and the parsed cooldown hint for rate-limit errors. -/
structure RelayEnv where
  configured : Bool
  now : ℚ
  submitTime : ℚ
  today : String
  execResult : Except String TxSubmission
  pollResult : Except String (Option PollFinal)
  resetHint : Option ℕ

/-- Failure dict `{"success": False, "error": msg}`. -/
def failResult (msg : String) : BatchResult :=
  { success := false, redeemed := [], tx_hash := none, error := some msg, note := none }

/-- The success no-op dict returned when every id was already redeemed. -/
def noopResult : BatchResult :=
  { success := true, redeemed := [], tx_hash := none, error := none,
    note := some "All already redeemed" }

/-- Success dict carrying the redeemed ids and a transaction hash. -/
def successResult (redeemed : List String) (h : String) : BatchResult :=
  { success := true, redeemed := redeemed, tx_hash := some h, error := none,
    note := none }

/-- The filter at the top of `batch_redeem`
(`redemption_service.py` lines 228-231): drop ids already in the redeemed
set. -/
def toRedeemOf (svc : RedemptionService) (condition_ids : List String) : List String :=
  condition_ids.filter (fun cid => decide (cid ∉ svc.redeemed_conditions))

/-- Add all submitted ids to the session redeemed set
(`redemption_service.py` lines 262-263). -/
def addRedeemed (svc : RedemptionService) (ids : List String) : RedemptionService :=
  { svc with redeemed_conditions :=
      ids.foldl (fun s cid => insert cid s) svc.redeemed_conditions }

/-- The exception handler of `batch_redeem`
(`redemption_service.py` lines 291-296): start a cooldown when the error
message signals a rate limit. -/
def maybeCooldown (svc : RedemptionService) (env : RelayEnv) (msg : String) :
    RedemptionService :=
  if is_rate_limit_msg msg then handle_429 svc env.now env.resetHint else svc

/-- Confirmation polling after a successful submission
(`redemption_service.py` lines 270-296): a confirmed or mined terminal state
is success with the confirming hash; a failed terminal state is failure; a
missing or other final state is provisional success with the submission-time
hash; a raised poll exception is caught and reported as failure.  The state
passed in already has the quota recorded and the ids added. -/
def afterSubmit (svc : RedemptionService) (env : RelayEnv)
    (to_redeem : List String) (sub : TxSubmission) : RedemptionService × BatchResult :=
  match env.pollResult with
  | .error msg => (maybeCooldown svc env msg, failResult msg)
  | .ok (some final) =>
    if final.state = "STATE_CONFIRMED" ∨ final.state = "STATE_MINED" then
      (svc, successResult to_redeem (final.transactionHash.getD sub.transaction_hash))
    else if final.state = "STATE_FAILED" then
      (svc, failResult "Batch transaction failed on-chain")
    else (svc, successResult to_redeem sub.transaction_hash)
  | .ok none => (svc, successResult to_redeem sub.transaction_hash)

/-- RedemptionService.batch_redeem, `redemption_service.py` lines 218-296:
refuse when not configured; drop already-redeemed ids and return the success
no-op when nothing remains; consult the quota gate once for the whole batch;
submit one multi-call transaction; on successful submission record exactly
one quota unit and add every submitted id to the redeemed set, then poll for
confirmation; a raised `execute` exception leaves the quota and the set
untouched. -/
def batch_redeem (svc : RedemptionService) (env : RelayEnv)
    (condition_ids : List String) : RedemptionService × BatchResult :=
  if env.configured = false then
    (svc, failResult "Builder credentials not configured")
  else if toRedeemOf svc condition_ids = [] then
    (svc, noopResult)
  else if (check_quota svc env.now env.today).2.1 = false then
    ((check_quota svc env.now env.today).1,
      failResult ("Quota: " ++ (check_quota svc env.now env.today).2.2))
  else
    match env.execResult with
    | .error msg =>
      (maybeCooldown (check_quota svc env.now env.today).1 env msg, failResult msg)
    | .ok sub =>
      afterSubmit
        (addRedeemed (record_tx (check_quota svc env.now env.today).1 env.submitTime)
          (toRedeemOf svc condition_ids))
        env (toRedeemOf svc condition_ids) sub

/-- On-chain read capability: the payout denominator and per-outcome
numerator probes, each of which may fail. -/
structure ChainEnv where
  denomOf : String → Except String ℕ
  numerOf : String → ℕ → Except String ℕ

/-- RedemptionService.check_resolved, `redemption_service.py` lines 177-212:
two read-only probes, fixed at two outcomes; a zero denominator or any call
failure yields the not-resolved signal `none`.  The function never touches
the quota state or the redeemed set. -/
def check_resolved (env : ChainEnv) (condition_id : String) : Option (List ℕ) :=
  match env.denomOf condition_id with
  | .error _ => none
  | .ok denom =>
    if denom = 0 then none
    else
      match env.numerOf condition_id 0, env.numerOf condition_id 1 with
      | .ok n0, .ok n1 => some [n0, n1]
      | _, _ => none

/-- One raw entry of the funder-wallet positions response read by the
discovery sweep. -/
structure OrphanEntry where
  conditionId : Option String
  size : Option ℚ

/-- Environment of one discovery sweep: library availability, the configured
funder address, the positions-index response, the on-chain read capability,
and the relayer environment for the final batch redemption. -/
structure DiscoveryEnv where
  httpx_available : Bool
  funder : String
  fetchResult : Except String (List OrphanEntry)
  chain : ChainEnv
  relay : RelayEnv

/-- Deduplication via `dict.fromkeys`: keep the first occurrence of each id,
in order. -/
def firstDedupAux : List String → List String → List String
  | _, [] => []
  | seen, x :: xs =>
    if x ∈ seen then firstDedupAux seen xs
    else x :: firstDedupAux (x :: seen) xs

/-- Deduplicate a list keeping first occurrences. -/
def firstDedup (l : List String) : List String := firstDedupAux [] l

/-- Orphan candidate filter of `discover_and_redeem_orphans`
(`redemption_service.py` lines 330-340): nonempty condition id, size above
the dust threshold, and not already known or redeemed. -/
def orphanCids (svc : RedemptionService) (known : Finset String)
    (positions : List OrphanEntry) : List String :=
  (positions.filter (fun p =>
    decide (p.conditionId.getD "" ≠ "" ∧ 1/2 < p.size.getD 0 ∧
      p.conditionId.getD "" ∉ known ∧
      p.conditionId.getD "" ∉ svc.redeemed_conditions))).map
    (fun p => p.conditionId.getD "")

/-- Deduplicated, capped orphan candidate list
(`redemption_service.py` line 346). -/
def cappedOrphans (svc : RedemptionService) (known : Finset String)
    (positions : List OrphanEntry) : List String :=
  (firstDedup (orphanCids svc known positions)).take DISCOVERY_MAX_PER_SWEEP

/-- Resolution check over the capped candidates
(`redemption_service.py` lines 350-355): keep those whose `check_resolved`
returns numerators. -/
def resolvedOrphans (env : DiscoveryEnv) (cids : List String) : List String :=
  cids.filter (fun cid => (check_resolved env.chain cid).isSome)

/-- RedemptionService.discover_and_redeem_orphans,
`redemption_service.py` lines 302-367: fetch the funder positions, filter and
cap the orphan candidates, resolution-check them, and batch-redeem the
resolved ones; returns the updated state and the list of redeemed ids. -/
def discover_and_redeem_orphans (svc : RedemptionService) (env : DiscoveryEnv)
    (known_condition_ids : Finset String) : RedemptionService × List String :=
  if env.httpx_available = false ∨ env.relay.configured = false ∨ env.funder = "" then
    (svc, [])
  else
    match env.fetchResult with
    | .error _ => (svc, [])
    | .ok positions =>
      if orphanCids svc known_condition_ids positions = [] then (svc, [])
      else if resolvedOrphans env (cappedOrphans svc known_condition_ids positions) = [] then
        (svc, [])
      else
        ((batch_redeem svc env.relay
            (resolvedOrphans env (cappedOrphans svc known_condition_ids positions))).1,
          if (batch_redeem svc env.relay
              (resolvedOrphans env (cappedOrphans svc known_condition_ids positions))).2.success then
            (batch_redeem svc env.relay
              (resolvedOrphans env (cappedOrphans svc known_condition_ids positions))).2.redeemed
          else [])

/-- A fresh redemption-service state on 2026-10-12 with nothing redeemed. -/
def svcFresh : RedemptionService := ⟨0, "2026-10-12", 0, 0, ∅⟩

/-- A sample accepted relayer submission. -/
def subW : TxSubmission := ⟨"tx-1", "0xabc"⟩

/-- Relayer environment: configured, gate clock at 100s, submission accepted
and confirmed by the poll. -/
def envConfirmed : RelayEnv :=
  ⟨true, 100, 101, "2026-10-12", Except.ok subW,
    Except.ok (some ⟨"STATE_CONFIRMED", none⟩), none⟩

/-- Relayer environment: as `envConfirmed` but the poll reports the terminal
failed state. -/
def envFailed : RelayEnv :=
  ⟨true, 100, 101, "2026-10-12", Except.ok subW,
    Except.ok (some ⟨"STATE_FAILED", none⟩), none⟩

/-- Executor state with no open positions and zero P&L, last reset day 0. -/
def ex0 : TradeExecutor := ⟨[], 0, 0⟩

/-- Executor state that has hit the sample daily loss limit of 100. -/
def exLoss : TradeExecutor := ⟨[], -100, 0⟩

/-- A valid configuration whose active cap is the fixed dollar cap 1.006
(no account balance set, capital ratio 10). -/
def cfg1006 : Config :=
  ⟨"u", "k", "", "", "r", true, 5, 5, 0, 100000, 1/20, 1/10, 1006/1000, 10,
    100, 10, "", "", "", []⟩

/-- A trader position of size 1000. -/
def posBig : Position := ⟨"m1", "t", "Yes", 1000, 1/2, "w"⟩

/-!
Helper lemmas about dict lookup and the diff lists.
-/

theorem lookupPos_mem {mid : String} {v : Position} {l : List (String × Position)}
    (h : lookupPos mid l = some v) : (mid, v) ∈ l := by
  induction l with
  | nil => simp [lookupPos] at h
  | cons kv rest ih =>
    rw [lookupPos] at h
    by_cases hk : kv.1 = mid
    · rw [if_pos hk] at h
      injection h with h
      subst h
      subst hk
      simp
    · rw [if_neg hk] at h
      exact List.mem_cons_of_mem _ (ih h)

theorem lookupPos_isSome_iff {mid : String} {l : List (String × Position)} :
    (lookupPos mid l).isSome = true ↔ mid ∈ l.map Prod.fst := by
  induction l with
  | nil => simp [lookupPos]
  | cons kv rest ih =>
    rw [lookupPos]
    by_cases hk : kv.1 = mid
    · simp [hk]
    · simp only [List.map_cons, List.mem_cons, if_neg hk, ih]
      constructor
      · intro h
        exact Or.inr h
      · rintro (h | h)
        · exact absurd h.symm hk
        · exact h

theorem lookupPos_eq_none_iff {mid : String} {l : List (String × Position)} :
    lookupPos mid l = none ↔ mid ∉ l.map Prod.fst := by
  rw [← lookupPos_isSome_iff]
  cases lookupPos mid l <;> simp

theorem lookupPos_of_mem_nodup {mid : String} {v : Position}
    {l : List (String × Position)} (hn : nodupKeys l) (h : (mid, v) ∈ l) :
    lookupPos mid l = some v := by
  induction l with
  | nil => simp at h
  | cons kv rest ih =>
    unfold nodupKeys at hn
    rw [List.map_cons, List.nodup_cons] at hn
    rw [lookupPos]
    rcases List.mem_cons.mp h with heq | hmem
    · rw [← heq]
      simp
    · have hk : kv.1 ≠ mid := by
        intro hkk
        exact hn.1 (hkk ▸ List.mem_map.mpr ⟨(mid, v), hmem, rfl⟩)
      rw [if_neg hk]
      exact ih hn.2 hmem

theorem mem_new_iff {previous current : List (String × Position)}
    (hwc : ∀ kv ∈ current, (kv.2).market_id = kv.1) {mid : String} :
    mid ∈ (new_positions previous current).map Position.market_id ↔
      (lookupPos mid current).isSome = true ∧ lookupPos mid previous = none := by
  unfold new_positions
  rw [List.map_map]
  constructor
  · intro h
    rcases List.mem_map.mp h with ⟨kv, hkv, hmid⟩
    rcases List.mem_filter.mp hkv with ⟨hkvc, hpred⟩
    have hk : kv.1 = mid := by rw [← hwc kv hkvc]; exact hmid
    refine ⟨?_, ?_⟩
    · rw [lookupPos_isSome_iff]
      exact hk ▸ List.mem_map.mpr ⟨kv, hkvc, rfl⟩
    · rw [← hk]
      exact Option.isNone_iff_eq_none.mp hpred
  · rintro ⟨hc, hp⟩
    rcases Option.isSome_iff_exists.mp hc with ⟨v, hv⟩
    refine List.mem_map.mpr ⟨(mid, v), List.mem_filter.mpr ⟨lookupPos_mem hv, ?_⟩, ?_⟩
    · show (lookupPos (mid, v).1 previous).isNone = true
      simp [hp]
    · exact hwc (mid, v) (lookupPos_mem hv)

theorem mem_closed_iff {previous current : List (String × Position)}
    (hwp : ∀ kv ∈ previous, (kv.2).market_id = kv.1) {mid : String} :
    mid ∈ (closed_positions previous current).map Position.market_id ↔
      (lookupPos mid previous).isSome = true ∧ lookupPos mid current = none := by
  unfold closed_positions
  rw [List.map_map]
  constructor
  · intro h
    rcases List.mem_map.mp h with ⟨kv, hkv, hmid⟩
    rcases List.mem_filter.mp hkv with ⟨hkvp, hpred⟩
    have hk : kv.1 = mid := by rw [← hwp kv hkvp]; exact hmid
    refine ⟨?_, ?_⟩
    · rw [lookupPos_isSome_iff]
      exact hk ▸ List.mem_map.mpr ⟨kv, hkvp, rfl⟩
    · rw [← hk]
      exact Option.isNone_iff_eq_none.mp hpred
  · rintro ⟨hp, hc⟩
    rcases Option.isSome_iff_exists.mp hp with ⟨v, hv⟩
    refine List.mem_map.mpr ⟨(mid, v), List.mem_filter.mpr ⟨lookupPos_mem hv, ?_⟩, ?_⟩
    · show (lookupPos (mid, v).1 current).isNone = true
      simp [hc]
    · exact hwp (mid, v) (lookupPos_mem hv)

theorem mem_adjusted_iff {previous current : List (String × Position)}
    (hwc : ∀ kv ∈ current, (kv.2).market_id = kv.1)
    (hnc : nodupKeys current) {mid : String} :
    mid ∈ (adjusted_positions previous current).map Position.market_id ↔
      ∃ vp vc, lookupPos mid previous = some vp ∧ lookupPos mid current = some vc ∧
        1/100 < |vc.size - vp.size| := by
  unfold adjusted_positions
  rw [List.map_map]
  constructor
  · intro h
    rcases List.mem_map.mp h with ⟨kv, hkv, hmid⟩
    rcases List.mem_filter.mp hkv with ⟨hkvc, hpred⟩
    have hk : kv.1 = mid := by rw [← hwc kv hkvc]; exact hmid
    rcases hlp : lookupPos kv.1 previous with _ | vp
    · rw [hlp] at hpred
      simp at hpred
    · rw [hlp] at hpred
      have hsz := of_decide_eq_true hpred
      have hmemc : (mid, kv.2) ∈ current := by
        rw [← hk]
        simpa using hkvc
      exact ⟨vp, kv.2, hk ▸ hlp, lookupPos_of_mem_nodup hnc hmemc, hsz⟩
  · rintro ⟨vp, vc, hp, hc, hsz⟩
    refine List.mem_map.mpr ⟨(mid, vc), List.mem_filter.mpr ⟨lookupPos_mem hc, ?_⟩, ?_⟩
    · show (match lookupPos (mid, vc).1 previous with
        | some prev => decide (1/100 < |(mid, vc).2.size - prev.size|)
        | none => false) = true
      have : lookupPos (mid, vc).1 previous = some vp := hp
      rw [this]
      exact decide_eq_true hsz
    · exact hwc (mid, vc) (lookupPos_mem hc)

/-- Claim C3: for every pair of previous and current wallet snapshots, every
market id occurring in the union of the two snapshots is classified by the
diff of `detect_changes` into exactly one of the four classes unchanged, new,
closed, adjusted (new iff only in current; closed iff only in previous;
adjusted iff in both with size difference above the tolerance; unchanged
otherwise). -/
theorem detect_changes_partition
    (previous current : List (String × Position))
    (hwp : ∀ kv ∈ previous, (kv.2).market_id = kv.1)
    (hwc : ∀ kv ∈ current, (kv.2).market_id = kv.1)
    (hnc : nodupKeys current)
    (mid : String)
    (hmem : mid ∈ previous.map Prod.fst ∨ mid ∈ current.map Prod.fst) :
    ∃! cl : ChangeClass, inClass previous current mid cl := by
  rcases hp : lookupPos mid previous with _ | vp <;>
    rcases hc : lookupPos mid current with _ | vc
  · exfalso
    rcases hmem with h | h
    · exact (lookupPos_eq_none_iff.mp hp) h
    · exact (lookupPos_eq_none_iff.mp hc) h
  · refine ⟨ChangeClass.fresh, ?_, ?_⟩
    · show mid ∈ (new_positions previous current).map Position.market_id
      exact (mem_new_iff hwc).mpr ⟨by simp [hc], hp⟩
    · intro y hy
      cases y with
      | fresh => rfl
      | closed =>
        have h := ((mem_closed_iff hwp).mp hy).1
        rw [hp] at h
        simp at h
      | adjusted =>
        obtain ⟨vp, _, hvp, _, _⟩ := (mem_adjusted_iff hwc hnc).mp hy
        rw [hp] at hvp
        cases hvp
      | unchanged =>
        obtain ⟨vp, _, hvp, _, _⟩ := hy
        rw [hp] at hvp
        cases hvp
  · refine ⟨ChangeClass.closed, ?_, ?_⟩
    · show mid ∈ (closed_positions previous current).map Position.market_id
      exact (mem_closed_iff hwp).mpr ⟨by simp [hp], hc⟩
    · intro y hy
      cases y with
      | closed => rfl
      | fresh =>
        have h := ((mem_new_iff hwc).mp hy).1
        rw [hc] at h
        simp at h
      | adjusted =>
        obtain ⟨_, vc, _, hvc, _⟩ := (mem_adjusted_iff hwc hnc).mp hy
        rw [hc] at hvc
        cases hvc
      | unchanged =>
        obtain ⟨_, vc, _, hvc, _⟩ := hy
        rw [hc] at hvc
        cases hvc
  · by_cases htol : 1/100 < |vc.size - vp.size|
    · refine ⟨ChangeClass.adjusted, ?_, ?_⟩
      · show mid ∈ (adjusted_positions previous current).map Position.market_id
        exact (mem_adjusted_iff hwc hnc).mpr ⟨vp, vc, hp, hc, htol⟩
      · intro y hy
        cases y with
        | adjusted => rfl
        | fresh =>
          have h := ((mem_new_iff hwc).mp hy).2
          rw [hp] at h
          cases h
        | closed =>
          have h := ((mem_closed_iff hwp).mp hy).2
          rw [hc] at h
          cases h
        | unchanged =>
          obtain ⟨vp1, vc1, hvp, hvc, hns⟩ := hy
          rw [hp] at hvp
          rw [hc] at hvc
          injection hvp with hvp
          injection hvc with hvc
          subst hvp
          subst hvc
          exact absurd htol hns
    · refine ⟨ChangeClass.unchanged, ⟨vp, vc, hp, hc, htol⟩, ?_⟩
      intro y hy
      cases y with
      | unchanged => rfl
      | fresh =>
        have h := ((mem_new_iff hwc).mp hy).2
        rw [hp] at h
        cases h
      | closed =>
        have h := ((mem_closed_iff hwp).mp hy).2
        rw [hc] at h
        cases h
      | adjusted =>
        obtain ⟨vp1, vc1, hvp, hvc, hsz⟩ := (mem_adjusted_iff hwc hnc).mp hy
        rw [hp] at hvp
        rw [hc] at hvc
        injection hvp with hvp
        injection hvc with hvc
        subst hvp
        subst hvc
        exact absurd hsz htol

/-- Witness for C3: the partition theorem applied to concrete one-entry
snapshots where the size moved from 10 to 10.5. -/
theorem detect_changes_partition_witness :
    ∃! cl : ChangeClass,
      inClass [("m1", (⟨"m1", "t1", "Yes", 10, 1/2, "w1"⟩ : Position))]
        [("m1", (⟨"m1", "t1", "Yes", 21/2, 1/2, "w1"⟩ : Position))] "m1" cl :=
  detect_changes_partition _ _ (by decide) (by decide) (by simp [nodupKeys]) "m1" (by decide)

/-- Claim C4: for every market id present in both snapshots, a size change of
absolute value at most 0.01 is never classified adjusted, and a size change
of absolute value at least 0.011 is always classified adjusted. -/
theorem adjusted_epsilon_boundary
    (previous current : List (String × Position))
    (hwc : ∀ kv ∈ current, (kv.2).market_id = kv.1)
    (hnc : nodupKeys current)
    (mid : String) (vp vc : Position)
    (hp : lookupPos mid previous = some vp)
    (hc : lookupPos mid current = some vc) :
    (|vc.size - vp.size| ≤ 1/100 →
      mid ∉ (adjusted_positions previous current).map Position.market_id) ∧
    (11/1000 ≤ |vc.size - vp.size| →
      mid ∈ (adjusted_positions previous current).map Position.market_id) := by
  constructor
  · intro hle hmemadj
    obtain ⟨vp1, vc1, hvp, hvc, hsz⟩ := (mem_adjusted_iff hwc hnc).mp hmemadj
    rw [hp] at hvp
    rw [hc] at hvc
    injection hvp with hvp
    injection hvc with hvc
    subst hvp
    subst hvc
    linarith
  · intro hge
    exact (mem_adjusted_iff hwc hnc).mpr ⟨vp, vc, hp, hc, by linarith⟩

/-- Witness for C4: with a previous size of 10, a current size of 11
(change 1 ≥ 0.011) is classified adjusted and an unchanged size of 10
(change 0 ≤ 0.01) is not. -/
theorem adjusted_epsilon_boundary_witness :
    "m1" ∈ (adjusted_positions
        [("m1", (⟨"m1", "t1", "Yes", 10, 1/2, "w1"⟩ : Position))]
        [("m1", (⟨"m1", "t1", "Yes", 11, 1/2, "w1"⟩ : Position))]).map
        Position.market_id ∧
    "m2" ∉ (adjusted_positions
        [("m2", (⟨"m2", "t2", "No", 10, 1/2, "w2"⟩ : Position))]
        [("m2", (⟨"m2", "t2", "No", 10, 1/2, "w2"⟩ : Position))]).map
        Position.market_id :=
  ⟨(adjusted_epsilon_boundary
      [("m1", (⟨"m1", "t1", "Yes", 10, 1/2, "w1"⟩ : Position))]
      [("m1", (⟨"m1", "t1", "Yes", 11, 1/2, "w1"⟩ : Position))]
      (by decide) (by simp [nodupKeys]) "m1"
      ⟨"m1", "t1", "Yes", 10, 1/2, "w1"⟩ ⟨"m1", "t1", "Yes", 11, 1/2, "w1"⟩
      rfl rfl).2 (by rw [le_abs]; left; norm_num),
   (adjusted_epsilon_boundary
      [("m2", (⟨"m2", "t2", "No", 10, 1/2, "w2"⟩ : Position))]
      [("m2", (⟨"m2", "t2", "No", 10, 1/2, "w2"⟩ : Position))]
      (by decide) (by simp [nodupKeys]) "m2"
      ⟨"m2", "t2", "No", 10, 1/2, "w2"⟩ ⟨"m2", "t2", "No", 10, 1/2, "w2"⟩
      rfl rfl).1 (by rw [abs_le]; constructor <;> norm_num)⟩

/-- Dict insertion preserves snapshot well-formedness when the inserted
position is well-formed. -/
theorem dictInsert_wf {l : List (String × Position)} {mid : String}
    {pos : Position} (hl : wellFormedSnapshot l) (hmid : mid ≠ "")
    (hpos : pos.market_id = mid) (hsize : 0 < pos.size) :
    wellFormedSnapshot (dictInsert l mid pos) := by
  intro kv hkv
  unfold dictInsert at hkv
  split at hkv
  · rcases List.mem_map.mp hkv with ⟨kv0, hkv0, rfl⟩
    by_cases hk : kv0.1 = mid
    · rw [if_pos hk]
      exact ⟨hmid, hpos, hsize⟩
    · rw [if_neg hk]
      exact hl kv0 hkv0
  · rcases List.mem_append.mp hkv with h | h
    · exact hl kv h
    · rw [List.mem_singleton.mp h]
      exact ⟨hmid, hpos, hsize⟩

/-- The response loop of `fetch_positions` preserves well-formedness of the
accumulated snapshot. -/
theorem fetchFold_wf (address : String) (data : List RawPosition) :
    ∀ acc : List (String × Position), wellFormedSnapshot acc →
      wellFormedSnapshot (data.foldl (fetchStep address) acc) := by
  induction data with
  | nil => intro acc h; simpa using h
  | cons p rest ih =>
    intro acc hacc
    rw [List.foldl_cons]
    apply ih
    unfold fetchStep
    by_cases h1 : rawSize p ≤ 0
    · simpa [h1] using hacc
    · by_cases h2 : rawMarketId p = ""
      · simpa [h1, h2] using hacc
      · rw [if_neg h1, if_neg h2]
        exact dictInsert_wf hacc h2 rfl (lt_of_not_le h1)

/-- Claim C10: every snapshot returned by `fetch_positions` is well-formed
(each entry maps a nonempty market id to a position carrying that id and a
strictly positive size, entries with nonpositive size or missing market id
having been dropped), and on a fetch error, a non-200 status or a non-list
body the returned snapshot is empty. -/
theorem fetch_positions_wellformed (address : String) (resp : FetchResponse) :
    wellFormedSnapshot (fetch_positions address resp) ∧
    fetch_positions address FetchResponse.failure = [] ∧
    (∀ status body, status ≠ 200 →
      fetch_positions address (FetchResponse.ok status body) = []) ∧
    (∀ status, fetch_positions address (FetchResponse.ok status none) = []) := by
  refine ⟨?_, rfl, ?_, ?_⟩
  · match resp with
    | .failure => intro kv hkv; simp [fetch_positions] at hkv
    | .ok status body =>
      by_cases h : status = 200
      · subst h
        match body with
        | none => intro kv hkv; simp [fetch_positions] at hkv
        | some data =>
          have heq : fetch_positions address (FetchResponse.ok 200 (some data)) =
              data.foldl (fetchStep address) [] := by simp [fetch_positions]
          rw [heq]
          exact fetchFold_wf address data [] (by intro kv hkv; simp at hkv)
      · intro kv hkv
        simp [fetch_positions, h] at hkv
  · intro status body h
    simp [fetch_positions, h]
  · intro status
    by_cases h : status = 200
    · subst h
      simp [fetch_positions]
    · simp [fetch_positions, h]

/-- Witness for C10: a concrete 200 response with one valid entry yields a
snapshot whose single entry satisfies the well-formedness facts. -/
theorem fetch_positions_wellformed_witness :
    ("m1" : String) ≠ "" ∧
      (⟨"m1", "tok", "Yes", 5, 1, "0xw"⟩ : Position).market_id = "m1" ∧
      0 < (⟨"m1", "tok", "Yes", 5, 1, "0xw"⟩ : Position).size :=
  (fetch_positions_wellformed "0xw"
      (FetchResponse.ok 200 (some [⟨some 5, none, some "m1", none, none,
        some "Yes", some 1, none, some "tok", none⟩]))).1
    ("m1", ⟨"m1", "tok", "Yes", 5, 1, "0xw"⟩) (by decide)

/-- Claim C8 (evidence for the code bug): a `Position` value does not carry a
condition identifier attribute.  The orchestrator loop reads
`pos.condition_id` from every newly detected or adjusted position
(`bot_runner.py` lines 148 and 188), but the attribute lookup finds nothing
(an `AttributeError` in Python), contradicting the specified data model in
which every Position carries a condition identifier field, possibly empty
until resolved via lookup. -/
theorem position_condition_id_attr_missing (p : Position) :
    p.getattr "condition_id" = none := rfl

/-- Round-half-to-even of a rational is within one half of it. -/
theorem abs_roundHalfEven_sub (q : ℚ) : |(roundHalfEven q : ℚ) - q| ≤ 1/2 := by
  unfold roundHalfEven
  split_ifs with h1 h2
  · rw [abs_sub_comm, abs_of_nonneg (sub_nonneg.mpr (Int.floor_le q)), h1]
  · push_cast
    rw [abs_of_nonneg (by linarith [Int.lt_floor_add_one q])]
    linarith
  · rw [abs_sub_comm]
    exact abs_sub_round q

/-- Rounding to two decimal places moves a rational by at most 1/200. -/
theorem abs_round2_sub (q : ℚ) : |round2 q - q| ≤ 1/200 := by
  have h := abs_roundHalfEven_sub (q * 100)
  unfold round2
  have heq : (roundHalfEven (q * 100) : ℚ) / 100 - q =
      ((roundHalfEven (q * 100) : ℚ) - q * 100) / 100 := by ring
  rw [heq, abs_div, abs_of_pos (by norm_num : (0:ℚ) < 100),
    div_le_iff₀ (by norm_num : (0:ℚ) < 100)]
  linarith

/-- A conditional singleton list is empty exactly when its condition fails. -/
theorem if_singleton_eq_nil {c : Prop} [Decidable c] {s : String}
    (h : (if c then [s] else []) = ([] : List String)) : ¬c := by
  intro hc
  rw [if_pos hc] at h
  simp at h

/-- The numeric facts about a configuration that passes validation. -/
theorem validate_nil_facts {cfg : Config} (h : cfg.validate = []) :
    0 < cfg.max_position_usd ∧ 1 ≤ cfg.capital_ratio ∧
      0 ≤ cfg.account_balance_usd ∧ 0 < cfg.max_position_pct := by
  unfold Config.validate at h
  simp only [List.append_eq_nil] at h
  obtain ⟨⟨⟨⟨⟨⟨⟨⟨⟨⟨⟨h1, h2⟩, h3⟩, h4⟩, h5⟩, h6⟩, h7⟩, h8⟩, h9⟩, h10⟩, h11⟩, h12⟩ := h
  refine ⟨not_le.mp (if_singleton_eq_nil h4), not_lt.mp (if_singleton_eq_nil h8),
    not_lt.mp (if_singleton_eq_nil h9), ?_⟩
  have h11n := if_singleton_eq_nil h11
  push_neg at h11n
  exact h11n.1

/-- A validated configuration has a strictly positive active cap. -/
theorem active_cap_pos {cfg : Config} (h : cfg.validate = []) :
    0 < active_cap cfg := by
  obtain ⟨hmax, _, _, hpct⟩ := validate_nil_facts h
  unfold active_cap
  split_ifs with hb
  · exact mul_pos hb hpct
  · exact hmax

/-- Counterexample to claim C5 as stated: with the validated configuration
`cfg1006` (active cap = fixed dollar cap 1.006) and a trader position of size
1000, `calculate_size` returns `round(1.006, 2) = 1.01`, which exceeds the
active cap: the final two-decimal rounding of `trade_executor.py` line 72 can
round past the cap computed on lines 51-56. -/
theorem calculate_size_exceeds_cap_counterexample :
    Config.validate cfg1006 = [] ∧
    active_cap cfg1006 < (calculate_size cfg1006 ex0 0 posBig).2 := by
  have hcap : active_cap cfg1006 = 1006/1000 := by norm_num [active_cap, cfg1006]
  constructor
  · norm_num [Config.validate, cfg1006]
    decide
  · have hround : roundHalfEven ((1006/1000 : ℚ) * 100) = 101 := by
      have hq : (1006/1000 : ℚ) * 100 = 503/5 := by norm_num
      rw [hq]
      have hfl : ⌊(503/5 : ℚ)⌋ = (100 : ℤ) := by
        rw [Int.floor_eq_iff]
        constructor <;> norm_num
      unfold roundHalfEven
      rw [if_neg]
      · rw [round_eq, show (503/5 : ℚ) + 1/2 = 1011/10 by norm_num,
          Int.floor_eq_iff]
        constructor <;> norm_num
      · rw [hfl]
        norm_num
    have hraw : posBig.size / cfg1006.capital_ratio = 100 := by
      norm_num [posBig, cfg1006]
    have hroll : pnlRollover ex0 0 = ex0 := by simp [pnlRollover, ex0]
    have hval : (calculate_size cfg1006 ex0 0 posBig).2 = round2 (1006/1000) := by
      unfold calculate_size
      rw [hroll]
      unfold calcSizeAfter
      rw [hraw, hcap, min_eq_right (by norm_num : (1006/1000 : ℚ) ≤ 100)]
      rw [if_neg (by norm_num), if_neg (by norm_num [cfg1006, ex0]),
        if_neg (by norm_num [cfg1006, ex0])]
    rw [hval, hcap]
    unfold round2
    rw [hround]
    norm_num

/-- Claim C5, amended: for every trader position and every configuration that
passes validation, `calculate_size` returns a value that is at least 0 and at
most the active cap plus the two-decimal rounding slack of 0.005.  (The claim
as stated, with the bare active cap as the bound, fails: the final rounding
can round up past the cap, see the counterexample.) -/
theorem calculate_size_risk_cap (cfg : Config) (ex : TradeExecutor)
    (today : ℤ) (pos : Position) (hv : cfg.validate = []) :
    0 ≤ (calculate_size cfg ex today pos).2 ∧
      (calculate_size cfg ex today pos).2 ≤ active_cap cfg + 1/200 := by
  have hcap := active_cap_pos hv
  unfold calculate_size calcSizeAfter
  split_ifs with h1 h2 h3
  · exact ⟨le_refl 0, by linarith⟩
  · exact ⟨le_refl 0, by linarith⟩
  · exact ⟨le_refl 0, by linarith⟩
  · have hs1 : (1:ℚ) ≤ min (pos.size / cfg.capital_ratio) (active_cap cfg) :=
      not_lt.mp h1
    have hb := abs_round2_sub (min (pos.size / cfg.capital_ratio) (active_cap cfg))
    rw [abs_le] at hb
    have hmin : min (pos.size / cfg.capital_ratio) (active_cap cfg) ≤ active_cap cfg :=
      min_le_right _ _
    constructor
    · show (0:ℚ) ≤ round2 (min (pos.size / cfg.capital_ratio) (active_cap cfg))
      linarith [hb.1]
    · show round2 (min (pos.size / cfg.capital_ratio) (active_cap cfg)) ≤
        active_cap cfg + 1/200
      linarith [hb.2]

/-- Witness for the amended C5: the bounds hold at the counterexample
configuration and position. -/
theorem calculate_size_risk_cap_witness :
    0 ≤ (calculate_size cfg1006 ex0 0 posBig).2 ∧
      (calculate_size cfg1006 ex0 0 posBig).2 ≤ active_cap cfg1006 + 1/200 :=
  calculate_size_risk_cap cfg1006 ex0 0 posBig
    (by norm_num [Config.validate, cfg1006]; decide)

/-- Claim C6: whenever the daily P&L of the executor is at or below the negated
daily loss limit and the UTC date has not advanced past the last reset date,
`calculate_size` returns 0 for every input position and leaves the state
unchanged — in particular the P&L and the reset date are untouched, so the
halt persists for every later call until the date advances (at which point
lines 43-46 of `trade_executor.py` reset the P&L to 0). -/
theorem calculate_size_loss_breaker (cfg : Config) (ex : TradeExecutor)
    (today : ℤ) (pos : Position)
    (hdate : today = ex.last_reset_date)
    (hloss : ex.daily_pnl ≤ -cfg.daily_loss_limit_usd) :
    calculate_size cfg ex today pos = (ex, 0) := by
  unfold calculate_size
  have hroll : pnlRollover ex today = ex := by
    unfold pnlRollover
    rw [if_neg (by simp [hdate])]
  rw [hroll]
  unfold calcSizeAfter
  split_ifs with h1 h2 <;> rfl

/-- Witness for C6: with the loss limit of 100 hit exactly and an unchanged
day stamp, the computed size is 0 and the state is unchanged. -/
theorem calculate_size_loss_breaker_witness :
    calculate_size cfg1006 exLoss 0 posBig = (exLoss, 0) :=
  calculate_size_loss_breaker cfg1006 exLoss 0 posBig rfl
    (by norm_num [cfg1006, exLoss])

/-- Setting the cooldown never changes the daily counter. -/
theorem handle_429_count (svc : RedemptionService) (now : ℚ) (hint : Option ℕ) :
    (handle_429 svc now hint).daily_tx_count = svc.daily_tx_count := by
  cases hint <;> rfl

/-- Setting the cooldown never changes the redeemed set. -/
theorem handle_429_redeemed (svc : RedemptionService) (now : ℚ) (hint : Option ℕ) :
    (handle_429 svc now hint).redeemed_conditions = svc.redeemed_conditions := by
  cases hint <;> rfl

/-- The exception handler never changes the daily counter. -/
theorem maybeCooldown_count (svc : RedemptionService) (env : RelayEnv) (msg : String) :
    (maybeCooldown svc env msg).daily_tx_count = svc.daily_tx_count := by
  unfold maybeCooldown
  split_ifs with h
  · exact handle_429_count svc env.now env.resetHint
  · rfl

/-- The exception handler never changes the redeemed set. -/
theorem maybeCooldown_redeemed (svc : RedemptionService) (env : RelayEnv) (msg : String) :
    (maybeCooldown svc env msg).redeemed_conditions = svc.redeemed_conditions := by
  unfold maybeCooldown
  split_ifs with h
  · exact handle_429_redeemed svc env.now env.resetHint
  · rfl

/-- The date rollover never changes the redeemed set. -/
theorem quotaRollover_redeemed (svc : RedemptionService) (today : String) :
    (quotaRollover svc today).redeemed_conditions = svc.redeemed_conditions := by
  unfold quotaRollover
  split_ifs <;> rfl

/-- The three quota checks return the state they were given. -/
theorem checkQuotaAfter_fst (s : RedemptionService) (now : ℚ) :
    (checkQuotaAfter s now).1 = s := by
  unfold checkQuotaAfter
  split_ifs <;> rfl

/-- The state returned by the quota gate is the date-rolled-over state. -/
theorem check_quota_fst (svc : RedemptionService) (now : ℚ) (today : String) :
    (check_quota svc now today).1 = quotaRollover svc today :=
  checkQuotaAfter_fst _ _

/-- When the stored date is current, the quota gate returns the state
unchanged. -/
theorem check_quota_fst_of_date {svc : RedemptionService} {now : ℚ}
    {today : String} (h : svc.daily_tx_date = today) :
    (check_quota svc now today).1 = svc := by
  rw [check_quota_fst]
  unfold quotaRollover
  rw [if_neg (by simp [h])]

/-- Recording a transaction increments the daily counter by one. -/
theorem record_tx_count (svc : RedemptionService) (now : ℚ) :
    (record_tx svc now).daily_tx_count = svc.daily_tx_count + 1 := rfl

/-- Recording a transaction never changes the redeemed set. -/
theorem record_tx_redeemed (svc : RedemptionService) (now : ℚ) :
    (record_tx svc now).redeemed_conditions = svc.redeemed_conditions := rfl

/-- Adding redeemed ids never changes the daily counter. -/
theorem addRedeemed_count (svc : RedemptionService) (ids : List String) :
    (addRedeemed svc ids).daily_tx_count = svc.daily_tx_count := rfl

/-- Folding `insert` over a list only grows a finite set. -/
theorem foldl_insert_subset (l : List String) (s : Finset String) :
    s ⊆ l.foldl (fun t c => insert c t) s := by
  induction l generalizing s with
  | nil => exact fun a ha => ha
  | cons x xs ih =>
    rw [List.foldl_cons]
    exact fun a ha => ih (insert x s) (Finset.mem_insert_of_mem ha)

/-- Every element of the list ends up in the fold of `insert` over it. -/
theorem mem_foldl_insert {cid : String} :
    ∀ (l : List String) (s : Finset String), cid ∈ l →
      cid ∈ l.foldl (fun t c => insert c t) s
  | [], _, h => absurd h (List.not_mem_nil cid)
  | x :: xs, s, h => by
    rw [List.foldl_cons]
    rcases List.mem_cons.mp h with rfl | hmem
    · exact foldl_insert_subset xs (insert cid s) (Finset.mem_insert_self cid s)
    · exact mem_foldl_insert xs (insert x s) hmem

/-- Adding ids via `addRedeemed` only grows the redeemed set. -/
theorem addRedeemed_subset (svc : RedemptionService) (ids : List String) :
    svc.redeemed_conditions ⊆ (addRedeemed svc ids).redeemed_conditions :=
  foldl_insert_subset ids _

/-- Every added id is in the redeemed set after `addRedeemed`. -/
theorem mem_addRedeemed (svc : RedemptionService) (ids : List String)
    (cid : String) (h : cid ∈ ids) :
    cid ∈ (addRedeemed svc ids).redeemed_conditions :=
  mem_foldl_insert ids _ h

/-- The confirmation poll never changes the daily counter. -/
theorem afterSubmit_fst_count (svc : RedemptionService) (env : RelayEnv)
    (tr : List String) (sub : TxSubmission) :
    (afterSubmit svc env tr sub).1.daily_tx_count = svc.daily_tx_count := by
  cases henv : env.pollResult with
  | error msg => simp [afterSubmit, henv, maybeCooldown_count]
  | ok o =>
    cases o with
    | none => simp [afterSubmit, henv]
    | some final =>
      simp only [afterSubmit, henv]
      split_ifs <;> rfl

/-- The confirmation poll never changes the redeemed set. -/
theorem afterSubmit_fst_redeemed (svc : RedemptionService) (env : RelayEnv)
    (tr : List String) (sub : TxSubmission) :
    (afterSubmit svc env tr sub).1.redeemed_conditions = svc.redeemed_conditions := by
  cases henv : env.pollResult with
  | error msg => simp [afterSubmit, henv, maybeCooldown_redeemed]
  | ok o =>
    cases o with
    | none => simp [afterSubmit, henv]
    | some final =>
      simp only [afterSubmit, henv]
      split_ifs <;> rfl

/-- Claim C1: for every nonempty list of condition ids none of which is
already in the redeemed set, a `batch_redeem` call that passes the quota gate
(with the stored quota date current) and whose relayer submission is accepted
increments the daily transaction counter by exactly 1, regardless of the
number of condition ids in the list and of the poll outcome. -/
theorem batch_redeem_quota_exactness
    (svc : RedemptionService) (env : RelayEnv) (condition_ids : List String)
    (sub : TxSubmission)
    (hconf : env.configured = true)
    (hne : condition_ids ≠ [])
    (hnew : ∀ cid ∈ condition_ids, cid ∉ svc.redeemed_conditions)
    (hdate : svc.daily_tx_date = env.today)
    (hquota : (check_quota svc env.now env.today).2.1 = true)
    (hexec : env.execResult = Except.ok sub) :
    (batch_redeem svc env condition_ids).1.daily_tx_count =
      svc.daily_tx_count + 1 := by
  have hto : toRedeemOf svc condition_ids = condition_ids := by
    unfold toRedeemOf
    apply List.filter_eq_self.mpr
    intro cid hcid
    exact decide_eq_true (hnew cid hcid)
  unfold batch_redeem
  rw [hto, hexec, if_neg (by rw [hconf]; simp), if_neg hne,
    if_neg (by rw [hquota]; simp)]
  simp only [afterSubmit_fst_count, addRedeemed_count, record_tx_count,
    check_quota_fst_of_date hdate]

/-- Witness for C1: a fresh service submits a confirmed batch of two new ids
and the daily counter goes from 0 to 1. -/
theorem batch_redeem_quota_exactness_witness :
    (batch_redeem svcFresh envConfirmed ["c1", "c2"]).1.daily_tx_count = 1 :=
  batch_redeem_quota_exactness svcFresh envConfirmed ["c1", "c2"] subW rfl
    (by simp) (by decide) rfl
    (by
      have h1 : quotaRollover svcFresh envConfirmed.today = svcFresh := by
        unfold quotaRollover
        rw [if_neg (by decide)]
      unfold check_quota
      rw [h1]
      unfold checkQuotaAfter
      rw [if_neg (by norm_num [svcFresh]),
        if_neg (by norm_num [svcFresh, DAILY_TX_LIMIT]),
        if_neg (by norm_num [svcFresh, envConfirmed, MIN_REDEEM_INTERVAL])])
    rfl

/-- A poll that reports the terminal failed state makes `batch_redeem` return
the failure dict while keeping the state it was given (ids stay redeemed). -/
theorem afterSubmit_failed (svc : RedemptionService) (env : RelayEnv)
    (tr : List String) (sub : TxSubmission) (final : PollFinal)
    (hpoll : env.pollResult = Except.ok (some final))
    (hfail : final.state = "STATE_FAILED") :
    afterSubmit svc env tr sub =
      (svc, failResult "Batch transaction failed on-chain") := by
  simp only [afterSubmit, hpoll]
  rw [hfail, if_neg (by simp), if_pos rfl]

/-- Counterexample to claim C2 as stated: a fresh service submits the batch
`["c1"]`, the poll reports the terminal failed state, the call returns
failure — and `c1` IS in the redeemed set afterwards (the ids were added
before polling, `redemption_service.py` lines 262-263, and are never removed
on failure), contradicting the claim that failed batches are not added and
stay eligible for retry. -/
theorem batch_redeem_failed_keeps_ids_counterexample :
    (batch_redeem svcFresh envFailed ["c1"]).2.success = false ∧
    "c1" ∈ (batch_redeem svcFresh envFailed ["c1"]).1.redeemed_conditions := by
  have hquota : (check_quota svcFresh envFailed.now envFailed.today).2.1 = true := by
    have h1 : quotaRollover svcFresh envFailed.today = svcFresh := by
      unfold quotaRollover
      rw [if_neg (by decide)]
    unfold check_quota
    rw [h1]
    unfold checkQuotaAfter
    rw [if_neg (by norm_num [svcFresh]),
      if_neg (by norm_num [svcFresh, DAILY_TX_LIMIT]),
      if_neg (by norm_num [svcFresh, envFailed, MIN_REDEEM_INTERVAL])]
  have hto : toRedeemOf svcFresh ["c1"] = ["c1"] := by decide
  have hrun : batch_redeem svcFresh envFailed ["c1"] =
      (addRedeemed (record_tx svcFresh envFailed.submitTime) ["c1"],
        failResult "Batch transaction failed on-chain") := by
    unfold batch_redeem
    rw [hto, show envFailed.execResult = Except.ok subW from rfl,
      if_neg (by simp [envFailed]), if_neg (by simp),
      if_neg (by rw [hquota]; simp),
      check_quota_fst_of_date (show svcFresh.daily_tx_date = envFailed.today from rfl)]
    exact afterSubmit_failed _ envFailed _ subW ⟨"STATE_FAILED", none⟩ rfl rfl
  rw [hrun]
  exact ⟨rfl, mem_addRedeemed _ _ _ (by simp)⟩

/-- Claim C2, amended: for every `batch_redeem` call whose submitted batch
reaches the terminal failed state, the quota unit for the submission attempt
is consumed and the call reports failure, but the condition ids of the batch
REMAIN in the session redeemed set (they are not rolled back, so they are
excluded — not retried — by later sweeps in the same process).  The claim as
stated, that the ids are not added to the redeemed set, fails on the code:
see the counterexample. -/
theorem batch_redeem_failed_consumes_quota_and_keeps_ids
    (svc : RedemptionService) (env : RelayEnv) (condition_ids : List String)
    (sub : TxSubmission) (final : PollFinal)
    (hconf : env.configured = true)
    (hne : condition_ids ≠ [])
    (hnew : ∀ cid ∈ condition_ids, cid ∉ svc.redeemed_conditions)
    (hdate : svc.daily_tx_date = env.today)
    (hquota : (check_quota svc env.now env.today).2.1 = true)
    (hexec : env.execResult = Except.ok sub)
    (hpoll : env.pollResult = Except.ok (some final))
    (hfail : final.state = "STATE_FAILED") :
    (batch_redeem svc env condition_ids).2.success = false ∧
    (∀ cid ∈ condition_ids,
      cid ∈ (batch_redeem svc env condition_ids).1.redeemed_conditions) ∧
    (batch_redeem svc env condition_ids).1.daily_tx_count =
      svc.daily_tx_count + 1 := by
  have hto : toRedeemOf svc condition_ids = condition_ids := by
    unfold toRedeemOf
    apply List.filter_eq_self.mpr
    intro cid hcid
    exact decide_eq_true (hnew cid hcid)
  have hrun : batch_redeem svc env condition_ids =
      (addRedeemed (record_tx svc env.submitTime) condition_ids,
        failResult "Batch transaction failed on-chain") := by
    unfold batch_redeem
    rw [hto, hexec, if_neg (by rw [hconf]; simp), if_neg hne,
      if_neg (by rw [hquota]; simp), check_quota_fst_of_date hdate]
    exact afterSubmit_failed _ env _ sub final hpoll hfail
  rw [hrun]
  exact ⟨rfl, fun cid hcid => mem_addRedeemed _ _ _ hcid, rfl⟩

/-- Witness for the amended C2: the failed batch `["c1", "c2"]` on a fresh
service reports failure, consumes the quota unit, and both ids end up in the
redeemed set. -/
theorem batch_redeem_failed_keeps_ids_witness :
    (batch_redeem svcFresh envFailed ["c1", "c2"]).2.success = false ∧
    (∀ cid ∈ ["c1", "c2"],
      cid ∈ (batch_redeem svcFresh envFailed ["c1", "c2"]).1.redeemed_conditions) ∧
    (batch_redeem svcFresh envFailed ["c1", "c2"]).1.daily_tx_count = 1 :=
  batch_redeem_failed_consumes_quota_and_keeps_ids svcFresh envFailed
    ["c1", "c2"] subW ⟨"STATE_FAILED", none⟩ rfl (by simp) (by decide) rfl
    (by
      have h1 : quotaRollover svcFresh envFailed.today = svcFresh := by
        unfold quotaRollover
        rw [if_neg (by decide)]
      unfold check_quota
      rw [h1]
      unfold checkQuotaAfter
      rw [if_neg (by norm_num [svcFresh]),
        if_neg (by norm_num [svcFresh, DAILY_TX_LIMIT]),
        if_neg (by norm_num [svcFresh, envFailed, MIN_REDEEM_INTERVAL])])
    rfl rfl rfl

/-- When every id is already redeemed, `batch_redeem` is the success no-op
and leaves the state untouched. -/
theorem batch_redeem_noop {svc : RedemptionService} {env : RelayEnv}
    {condition_ids : List String} (hconf : env.configured = true)
    (hto : toRedeemOf svc condition_ids = []) :
    batch_redeem svc env condition_ids = (svc, noopResult) := by
  unfold batch_redeem
  rw [if_neg (by rw [hconf]; simp), if_pos hto]

/-- Claim C7: after a first `batch_redeem` call that submitted the batch
(quota gate passed, relayer accepted the submission — whatever the poll
outcome), a second call with the same condition id list filters out every id
and returns the success no-op, redeeming zero new ids and leaving the state
unchanged. -/
theorem batch_redeem_idempotent
    (svc : RedemptionService) (env1 env2 : RelayEnv)
    (condition_ids : List String) (sub : TxSubmission)
    (hconf1 : env1.configured = true)
    (hconf2 : env2.configured = true)
    (hquota : (check_quota svc env1.now env1.today).2.1 = true)
    (hexec : env1.execResult = Except.ok sub) :
    batch_redeem (batch_redeem svc env1 condition_ids).1 env2 condition_ids =
      ((batch_redeem svc env1 condition_ids).1, noopResult) := by
  have hall : ∀ cid ∈ condition_ids,
      cid ∈ (batch_redeem svc env1 condition_ids).1.redeemed_conditions := by
    intro cid hcid
    by_cases hto : toRedeemOf svc condition_ids = []
    · have hredeemed : cid ∈ svc.redeemed_conditions := by
        by_contra hnot
        have hmemto : cid ∈ toRedeemOf svc condition_ids := by
          unfold toRedeemOf
          exact List.mem_filter.mpr ⟨hcid, decide_eq_true hnot⟩
        rw [hto] at hmemto
        cases hmemto
      rw [batch_redeem_noop hconf1 hto]
      exact hredeemed
    · unfold batch_redeem
      rw [hexec, if_neg (by rw [hconf1]; simp), if_neg hto,
        if_neg (by rw [hquota]; simp)]
      simp only [afterSubmit_fst_redeemed]
      by_cases hr : cid ∈ svc.redeemed_conditions
      · apply addRedeemed_subset
        rw [record_tx_redeemed, check_quota_fst, quotaRollover_redeemed]
        exact hr
      · apply mem_addRedeemed
        unfold toRedeemOf
        exact List.mem_filter.mpr ⟨hcid, decide_eq_true hr⟩
  have hto1 : toRedeemOf (batch_redeem svc env1 condition_ids).1 condition_ids = [] := by
    unfold toRedeemOf
    refine List.filter_eq_nil_iff.mpr ?_
    intro cid hcid
    simp only [decide_eq_true_eq]
    exact not_not_intro (hall cid hcid)
  exact batch_redeem_noop hconf2 hto1

/-- Witness for C7: on a fresh service the confirmed batch `["c1", "c2"]`
followed by the same batch again makes the second call the success no-op. -/
theorem batch_redeem_idempotent_witness :
    batch_redeem (batch_redeem svcFresh envConfirmed ["c1", "c2"]).1
        envConfirmed ["c1", "c2"] =
      ((batch_redeem svcFresh envConfirmed ["c1", "c2"]).1, noopResult) :=
  batch_redeem_idempotent svcFresh envConfirmed envConfirmed ["c1", "c2"]
    subW rfl rfl
    (by
      have h1 : quotaRollover svcFresh envConfirmed.today = svcFresh := by
        unfold quotaRollover
        rw [if_neg (by decide)]
      unfold check_quota
      rw [h1]
      unfold checkQuotaAfter
      rw [if_neg (by norm_num [svcFresh]),
        if_neg (by norm_num [svcFresh, DAILY_TX_LIMIT]),
        if_neg (by norm_num [svcFresh, envConfirmed, MIN_REDEEM_INTERVAL])])
    rfl

/-- Every `batch_redeem` call only grows the redeemed set, whatever the
environment and outcome. -/
theorem batch_redeem_redeemed_mono (svc : RedemptionService) (env : RelayEnv)
    (ids : List String) :
    svc.redeemed_conditions ⊆ (batch_redeem svc env ids).1.redeemed_conditions := by
  unfold batch_redeem
  split_ifs with h1 h2 h3
  · exact Finset.Subset.refl _
  · exact Finset.Subset.refl _
  · show svc.redeemed_conditions ⊆ (check_quota svc env.now env.today).1.redeemed_conditions
    rw [check_quota_fst, quotaRollover_redeemed]
  · cases hexec : env.execResult with
    | error msg =>
      simp only [hexec]
      show svc.redeemed_conditions ⊆
        (maybeCooldown (check_quota svc env.now env.today).1 env msg).redeemed_conditions
      rw [maybeCooldown_redeemed, check_quota_fst, quotaRollover_redeemed]
    | ok sub =>
      simp only [hexec]
      intro a ha
      rw [afterSubmit_fst_redeemed]
      apply addRedeemed_subset
      rw [record_tx_redeemed, check_quota_fst, quotaRollover_redeemed]
      exact ha

/-- Claim C9: the redeemed set grows monotonically: neither `batch_redeem`
nor `discover_and_redeem_orphans` ever removes a condition id from the
redeemed set (and `check_resolved` is a read-only probe that takes no service
state at all), so once an id is added it stays for every later operation of
the session. -/
theorem redeemed_set_monotone (svc : RedemptionService) (env : RelayEnv)
    (denv : DiscoveryEnv) (ids : List String) (known : Finset String) :
    svc.redeemed_conditions ⊆ (batch_redeem svc env ids).1.redeemed_conditions ∧
    svc.redeemed_conditions ⊆
      (discover_and_redeem_orphans svc denv known).1.redeemed_conditions := by
  refine ⟨batch_redeem_redeemed_mono svc env ids, ?_⟩
  unfold discover_and_redeem_orphans
  split_ifs with h1
  · exact Finset.Subset.refl _
  · cases hf : denv.fetchResult with
    | error msg =>
      simp only [hf]
      exact Finset.Subset.refl _
    | ok positions =>
      simp only [hf]
      split_ifs with h2 h3 h4
      · exact Finset.Subset.refl _
      · exact Finset.Subset.refl _
      · show svc.redeemed_conditions ⊆ (batch_redeem svc denv.relay
          (resolvedOrphans denv (cappedOrphans svc known positions))).1.redeemed_conditions
        exact batch_redeem_redeemed_mono _ _ _
      · show svc.redeemed_conditions ⊆ (batch_redeem svc denv.relay
          (resolvedOrphans denv (cappedOrphans svc known positions))).1.redeemed_conditions
        exact batch_redeem_redeemed_mono _ _ _
